import Mathlib

/-!
Verification of the scraping script `scripts/scrape.py`: filename
sanitisation (`safe_filename`), camel-casing (`to_camel_case`), asset
download (`download_asset`), the image- and navigation-URL rewriting
passes of `save_page`, Wix-ad stripping (`remove_wix_ads`), the output
filename chosen by `scrape_link`, and the `save_page` retry loop.

Python strings are modelled as Lean `String` values manipulated through
structurally recursive functions on `List Char`, mirroring the Python
string operations exactly.  The outside world (network results, browser
page data, filesystem write success) enters as explicit parameters.
-/

/-- Python's `\w` character class on ASCII input: letters, digits, underscore. -/
def isWordChar (c : Char) : Bool := c.isAlphanum || c = '_'

/-- One character of `re.sub(r'[^\w\-_\.]', '_', s)` (scrape.py line 13):
characters in the class {word characters, hyphen, underscore, period} are
kept, every other character becomes an underscore. -/
def sanitizeChar (c : Char) : Char :=
  if isWordChar c || c = '-' || c = '_' || c = '.' then c else '_'

/-- The characters before the first one satisfying `stop` (used to cut a URL
at `#` and at `?`, as `urllib.parse.urlparse` cuts fragment and query). -/
def takeUntil (stop : Char → Bool) : List Char → List Char
  | [] => []
  | c :: rest => if stop c then [] else c :: takeUntil stop rest

/-- The characters after the first occurrence of `"://"`, if any. -/
def afterSchemeMarker : List Char → Option (List Char)
  | ':' :: '/' :: '/' :: rest => some rest
  | _ :: rest => afterSchemeMarker rest
  | [] => none

/-- From the first `'/'` on (the path part of a `host/path` tail); empty when
there is no slash. -/
def fromFirstSlash : List Char → List Char
  | [] => []
  | c :: rest => if c = '/' then c :: rest else fromFirstSlash rest

/-- Model of `urllib.parse.urlparse(url).path` for the http(s)-style URLs this
script handles: the fragment (after `#`) and the query (after `?`) are cut,
and for a URL with a `scheme://netloc` part the path starts at the first `/`
after the netloc.  Exotic inputs (`;` parameters, scheme-only URLs such as
`mailto:`) are outside the model; the script only ever passes http(s) URLs. -/
def urlparse_path (url : String) : String :=
  let noFrag := takeUntil (fun c => c = '#') url.data
  let noQuery := takeUntil (fun c => c = '?') noFrag
  match afterSchemeMarker noQuery with
  | some rest => String.mk (fromFirstSlash rest)
  | none => String.mk noQuery

/-- The suffix of `l` after its last `'/'` (the whole list when there is no
slash).  This is `os.path.basename` on a plain path, and also Python's
`s.split("/")[-1]`. -/
def afterLastSlash : List Char → List Char
  | [] => []
  | c :: rest => if c = '/' ∨ '/' ∈ rest then afterLastSlash rest else c :: rest

/-- `safe_filename` (scrape.py lines 11-14):
`re.sub(r'[^\w\-_\.]', '_', os.path.basename(urllib.parse.urlparse(url).path))`. -/
def safe_filename (url : String) : String :=
  String.mk ((afterLastSlash (urlparse_path url).data).map sanitizeChar)

/-- The Filename Sanitizer as the spec words it: take the final segment of the
URL's path (its longest slash-free suffix) and replace every character outside
the set {word characters, hyphen, underscore, period} with an underscore. -/
def spec_safe_filename (url : String) : String :=
  String.mk
    ((((urlparse_path url).data.reverse.takeWhile fun c => decide (c ≠ '/')).reverse).map
      sanitizeChar)

/-- Whether `pat` occurs as a contiguous sublist of the second argument. -/
def isSubAux (pat : List Char) : List Char → Bool
  | [] => pat.isEmpty
  | c :: rest => pat.isPrefixOf (c :: rest) || isSubAux pat rest

/-- Python's substring test `needle in hay`. -/
def pyIn (needle hay : String) : Bool := isSubAux needle.data hay.data

/-- One fuel-measured pass of Python `str.replace`: at each position, if the
pattern is a prefix, emit the replacement and skip the pattern, otherwise copy
one character.  With `fuel = l.length` and a non-empty pattern the fuel never
runs out, since every step consumes at least one input character. -/
def replaceAux (pat rep : List Char) : Nat → List Char → List Char
  | _, [] => []
  | 0, l => l
  | fuel + 1, c :: rest =>
    if pat.isPrefixOf (c :: rest) then
      rep ++ replaceAux pat rep fuel (rest.drop (pat.length - 1))
    else c :: replaceAux pat rep fuel rest

/-- Python `s.replace(pat, rep)`: every non-overlapping occurrence, scanned
left to right.  (The callers in scrape.py only reach this with a non-empty
pattern; for the empty pattern the model returns `s` unchanged.) -/
def pyReplace (s pat rep : String) : String :=
  if pat.data.isEmpty then s
  else String.mk (replaceAux pat.data rep.data s.data.length s.data)

/-- Python `str.lower` on ASCII input. -/
def pyLower (s : String) : String := String.mk (s.data.map Char.toLower)

/-- Python `str.capitalize` on ASCII input: first character upper-cased, the
rest lower-cased. -/
def pyCapitalize (s : String) : String :=
  match s.data with
  | [] => ""
  | c :: cs => String.mk (c.toUpper :: cs.map Char.toLower)

/-- Helper for Python `str.split()` with no separator argument: `acc` holds
the current word, reversed. -/
def splitWsAux : List Char → List Char → List String
  | acc, [] => if acc.isEmpty then [] else [String.mk acc.reverse]
  | acc, c :: rest =>
    if c.isWhitespace then
      if acc.isEmpty then splitWsAux [] rest
      else String.mk acc.reverse :: splitWsAux [] rest
    else splitWsAux (c :: acc) rest

/-- Python `str.split()`: split on whitespace runs, drop empty words. -/
def splitWs (l : List Char) : List String := splitWsAux [] l

/-- `to_camel_case` (scrape.py lines 50-56):
`words = re.sub(r'[^\w\s]', '', text).split()` followed by
`words[0].lower() + ''.join(word.capitalize() for word in words[1:])`.
Indexing `words[0]` on an empty word list is a Python `IndexError`; the model
returns `Except.error ()` there. -/
def to_camel_case (text : String) : Except Unit String :=
  match splitWs (text.data.filter fun c => isWordChar c || c.isWhitespace) with
  | [] => Except.error ()
  | w :: ws => Except.ok (pyLower w ++ String.join (ws.map pyCapitalize))

/-- Python `link_url.split("/")[-1]` (scrape.py line 86): the suffix of the
URL after its last slash. -/
def lastSegment (s : String) : String := String.mk (afterLastSlash s.data)

/-- Whether an `Except` computation succeeded. -/
def isOkE {ε α : Type} : Except ε α → Bool
  | Except.ok _ => true
  | Except.error _ => false

/-- Outcome of `requests.get`: a response with an HTTP status code and body
bytes, or a network-level exception. -/
inductive FetchResult where
  | ok : Nat → List Nat → FetchResult
  | netError : FetchResult
deriving DecidableEq

/-- Observable outcome of `download_asset`: the file written (path and bytes),
if any, and whether the failure message was printed.  The function is total:
the `try/except Exception` swallows every error, so nothing propagates to the
caller. -/
structure DownloadResult where
  written : Option (String × List Nat)
  errorLogged : Bool
deriving DecidableEq

/-- `download_asset` (scrape.py lines 36-48): `requests.get(url)`, then
`response.raise_for_status()` — which raises exactly when
`400 ≤ status < 600` — then write the body verbatim to
`os.path.join(asset_folder, filename)`.  `writeOk` models whether the
filesystem write succeeds; any raised error is caught and logged.  There is
no retry: the function runs exactly once per call. -/
def download_asset (fetch : FetchResult) (writeOk : Bool)
    (asset_folder filename : String) : DownloadResult :=
  match fetch with
  | FetchResult.netError => ⟨none, true⟩
  | FetchResult.ok status body =>
    if 400 ≤ status ∧ status < 600 then ⟨none, true⟩
    else if writeOk then ⟨some (asset_folder ++ "/" ++ filename, body), false⟩
    else ⟨none, true⟩

/-- The image pass of `save_page` (scrape.py lines 70-76): for every `img`
element whose `src` attribute is present and non-empty, derive a safe
filename, call `download_asset` (whose success is given by `env` and whose
errors are swallowed), and then — unconditionally — replace every occurrence
of the image URL in the content with `./images/<safe_filename>`.  Returns the
rewritten content and the list of asset files written. -/
def imageLoop (env : String → Bool) : List (Option String) → String → String × List String
  | [], c => (c, [])
  | none :: rest, c => imageLoop env rest c
  | some u :: rest, c =>
    if u = "" then imageLoop env rest c
    else
      let fn := safe_filename u
      let r := imageLoop env rest (pyReplace c u ("./images/" ++ fn))
      (r.1, (if env u then [fn] else []) ++ r.2)

/-- The content transformation performed by the image pass, written without
reference to download outcomes. -/
def imageRewrite : List (Option String) → String → String
  | [], c => c
  | none :: rest, c => imageRewrite rest c
  | some u :: rest, c =>
    if u = "" then imageRewrite rest c
    else imageRewrite rest (pyReplace c u ("./images/" ++ safe_filename u))

/-- The asset files the image pass writes: exactly the successfully
downloaded ones. -/
def imageFiles (env : String → Bool) : List (Option String) → List String
  | [] => []
  | none :: rest => imageFiles env rest
  | some u :: rest =>
    if u = "" then imageFiles env rest
    else (if env u then [safe_filename u] else []) ++ imageFiles env rest

/-- One iteration of the navigation pass of `save_page` (lines 80-90).  A link
is `(href attribute, stripped inner text)`; the inner text is read by the
source but never used.  For a present, non-empty href containing the main
domain, the last URL segment is camel-cased (which can raise) and every
occurrence of the href in the content is replaced by `/pages/<name>.html`
(note the leading slash in the f-string on line 87). -/
def navStep (domain c : String) (l : Option String × String) : Except Unit String :=
  match l.1 with
  | none => Except.ok c
  | some u =>
    if u ≠ "" ∧ pyIn domain u = true then
      match to_camel_case (lastSegment u) with
      | Except.error e => Except.error e
      | Except.ok name => Except.ok (pyReplace c u ("/pages/" ++ name ++ ".html"))
    else Except.ok c

/-- The navigation pass of `save_page` (lines 79-90) over the nav links in
order; an exception in any iteration aborts the whole capture attempt. -/
def navLoop (domain : String) : List (Option String × String) → String → Except Unit String
  | [], c => Except.ok c
  | l :: rest, c =>
    match navStep domain c l with
    | Except.error e => Except.error e
    | Except.ok c2 => navLoop domain rest c2

/-- The pure content transformation of one navigation iteration (the raising
branch is unreachable for links accepted by `navLinkOk`). -/
def navRewriteStep (domain c : String) (l : Option String × String) : String :=
  match l.1 with
  | none => c
  | some u =>
    if u ≠ "" ∧ pyIn domain u = true then
      match to_camel_case (lastSegment u) with
      | Except.error _ => c
      | Except.ok name => pyReplace c u ("/pages/" ++ name ++ ".html")
    else c

/-- A nav link that does not make the navigation pass raise: either it is not
rewritten at all, or its last URL segment camel-cases successfully. -/
def navLinkOk (domain : String) (l : Option String × String) : Bool :=
  match l.1 with
  | none => true
  | some u =>
    if u ≠ "" ∧ pyIn domain u = true then isOkE (to_camel_case (lastSegment u))
    else true

/-- A parsed HTML node as BeautifulSoup sees it: a text node, or an element
with a tag name, an optional `id` attribute and a list of children. -/
inductive Node where
  | text : String → Node
  | elem : String → Option String → List Node → Node

/-- `remove_wix_ads` (scrape.py lines 27-34) at document level:
`soup.find_all(id="WIX_ADS")` finds every element with that id anywhere in the
tree, and `decompose()` deletes each together with its entire subtree. -/
def remove_wix_ads : List Node → List Node
  | [] => []
  | Node.text s :: rest => Node.text s :: remove_wix_ads rest
  | Node.elem tag idAttr cs :: rest =>
    if idAttr = some "WIX_ADS" then remove_wix_ads rest
    else Node.elem tag idAttr (remove_wix_ads cs) :: remove_wix_ads rest

/-- The number of elements in a document (at any depth) whose id attribute is
`target`. -/
def countId (target : String) : List Node → Nat
  | [] => 0
  | Node.text _ :: rest => countId target rest
  | Node.elem _ idAttr cs :: rest =>
    (if idAttr = some target then 1 else 0) + countId target cs + countId target rest

/-- The output filename `scrape_link` chooses (scrape.py line 126):
`f"pages/{link_text.replace(' ', '_').lower()}.html"`. -/
def scrape_link_filename (link_text : String) : String :=
  "pages/" ++ pyLower (pyReplace link_text " " "_") ++ ".html"

/-- Observable outcome of the `save_page` retry loop: the number of output
files written (0 or 1), the number of attempts made, whether the giving-up
message was printed, and the number of 2-second sleeps performed. -/
structure SaveResult where
  filesWritten : Nat
  attempts : Nat
  gaveUp : Bool
  sleeps : Nat
deriving DecidableEq

/-- The `while retries < max_retries` loop of `save_page` (lines 60-121):
`outcome i` tells whether attempt number `idx + i` succeeds.  A successful
attempt writes the output file, prints the saved message and returns; a
failed attempt increments the retry counter, sleeps 2 seconds and loops;
exhausting the retries prints the giving-up message and returns without
raising. -/
def savePageRun (outcome : Nat → Bool) (idx : Nat) : Nat → SaveResult
  | 0 => ⟨0, 0, true, 0⟩
  | n + 1 =>
    if outcome idx then ⟨1, 1, false, 0⟩
    else
      let r := savePageRun outcome (idx + 1) n
      ⟨r.filesWritten, r.attempts + 1, r.gaveUp, r.sleeps + 1⟩

/-- `save_page` (scrape.py lines 59-121, default `max_retries=3`) with the
body of one attempt abstracted to its outcome. -/
def save_page (outcome : Nat → Bool) (maxRetries : Nat) : SaveResult :=
  savePageRun outcome 0 maxRetries

/-- What one rendered page hands a capture attempt: the serialized content,
the `src` attribute of every `img` element, and the `(href, text)` pair of
every `nav a` element. -/
structure PageData where
  content : String
  imgs : List (Option String)
  links : List (Option String × String)

/-- The body of one `save_page` attempt through the rewriting passes: the
image pass never raises (`download_asset` swallows its own errors) while the
navigation pass raises exactly when `to_camel_case` does.  The later passes
(head-link rewriting, ad stripping, the file write) are total and modelled as
succeeding. -/
def captureAttempt (env : String → Bool) (domain : String) (pd : PageData) :
    Except Unit (String × List String) :=
  let r := imageLoop env pd.imgs pd.content
  match navLoop domain pd.links r.1 with
  | Except.error e => Except.error e
  | Except.ok c2 => Except.ok (c2, r.2)

/-- `save_page` on a page whose rendered data is the same on every attempt. -/
def save_page_full (env : String → Bool) (domain : String) (pd : PageData)
    (maxRetries : Nat) : SaveResult :=
  save_page (fun _ => isOkE (captureAttempt env domain pd)) maxRetries

/-! ## Helper lemmas -/

theorem takeWhile_append_left (p : Char → Bool) (xs ys : List Char)
    (h : ∃ x ∈ xs, p x = false) : (xs ++ ys).takeWhile p = xs.takeWhile p := by
  induction xs with
  | nil =>
    rcases h with ⟨x, hx, _⟩
    cases hx
  | cons a xs ih =>
    cases ha : p a with
    | false => simp [List.takeWhile_cons, ha]
    | true =>
      simp only [List.cons_append, List.takeWhile_cons, ha]
      rcases h with ⟨x, hx, hpx⟩
      rcases List.mem_cons.mp hx with rfl | hx2
      · rw [ha] at hpx; cases hpx
      · rw [ih ⟨x, hx2, hpx⟩]

theorem takeWhile_append_all (p : Char → Bool) (xs ys : List Char)
    (h : ∀ x ∈ xs, p x = true) : (xs ++ ys).takeWhile p = xs ++ ys.takeWhile p := by
  induction xs with
  | nil => simp
  | cons a xs ih =>
    have ha := h a (List.mem_cons_self _ _)
    simp only [List.cons_append, List.takeWhile_cons, ha, if_true]
    rw [ih fun x hx => h x (List.mem_cons_of_mem _ hx)]

theorem afterLastSlash_no_slash (l : List Char) (h : '/' ∉ l) : afterLastSlash l = l := by
  cases l with
  | nil => rfl
  | cons c rest =>
    have hc : ¬(c = '/' ∨ '/' ∈ rest) := by
      rintro (rfl | hm)
      · exact h (List.mem_cons_self _ _)
      · exact h (List.mem_cons_of_mem _ hm)
    simp [afterLastSlash, hc]

theorem afterLastSlash_eq (l : List Char) :
    afterLastSlash l = ((l.reverse.takeWhile fun c => decide (c ≠ '/')).reverse) := by
  induction l with
  | nil => rfl
  | cons c rest ih =>
    by_cases hr : '/' ∈ rest
    · have hcond : c = '/' ∨ '/' ∈ rest := Or.inr hr
      rw [show afterLastSlash (c :: rest) = afterLastSlash rest by simp [afterLastSlash, hcond]]
      rw [ih, List.reverse_cons,
        takeWhile_append_left _ _ _ ⟨'/', List.mem_reverse.mpr hr, by simp⟩]
    · by_cases hc : c = '/'
      · subst hc
        rw [show afterLastSlash ('/' :: rest) = afterLastSlash rest by
          simp [afterLastSlash]]
        rw [afterLastSlash_no_slash rest hr, List.reverse_cons,
          takeWhile_append_all _ _ _ fun x hx => by
            have : x ∈ rest := List.mem_reverse.mp hx
            simp
            rintro rfl
            exact hr this]
        simp
      · have hcond : ¬(c = '/' ∨ '/' ∈ rest) := by
          rintro (h1 | h2)
          · exact hc h1
          · exact hr h2
        rw [show afterLastSlash (c :: rest) = c :: rest by simp [afterLastSlash, hcond]]
        rw [List.reverse_cons,
          takeWhile_append_all _ _ _ fun x hx => by
            have : x ∈ rest := List.mem_reverse.mp hx
            simp
            rintro rfl
            exact hr this]
        simp [hc]

theorem string_data_inj (a b : String) (h : a.data = b.data) : a = b := by
  cases a
  cases b
  exact congrArg String.mk h

theorem string_append_data (a b : String) : (a ++ b).data = a.data ++ b.data := by
  cases a
  cases b
  rfl

theorem string_affix_cancel (pre suf a b : String)
    (h : pre ++ a ++ suf = pre ++ b ++ suf) : a = b := by
  apply string_data_inj
  have hd := congrArg String.data h
  rw [string_append_data, string_append_data, string_append_data, string_append_data] at hd
  exact List.append_cancel_left (List.append_cancel_right hd)

theorem slash_pages_append (X : String) :
    "/" ++ ("pages/" ++ X ++ ".html") = "/pages/" ++ X ++ ".html" := by
  apply string_data_inj
  simp only [string_append_data, List.append_assoc]
  rw [← List.append_assoc ("/".data) ("pages/".data)]
  have hlit : "/".data ++ "pages/".data = "/pages/".data := by decide
  rw [hlit]

theorem splitWsAux_nil_of_ws (l : List Char) (h : ∀ c ∈ l, c.isWhitespace = true) :
    splitWsAux [] l = [] := by
  induction l with
  | nil => rfl
  | cons c rest ih =>
    have hc := h c (List.mem_cons_self _ _)
    simp only [splitWsAux, hc, if_true, List.isEmpty_nil]
    exact ih fun x hx => h x (List.mem_cons_of_mem _ hx)

theorem to_camel_case_error (text : String)
    (h : ∀ c ∈ text.data, isWordChar c = false) :
    to_camel_case text = Except.error () := by
  have hsplit : splitWs (text.data.filter fun c => isWordChar c || c.isWhitespace) = [] := by
    apply splitWsAux_nil_of_ws
    intro c hc
    have hm := List.mem_filter.mp hc
    have hw := h c hm.1
    have hm2 := hm.2
    rw [hw] at hm2
    simpa using hm2
  unfold to_camel_case
  rw [hsplit]

theorem savePageRun_spec (outcome : Nat → Bool) (idx n : Nat) :
    (savePageRun outcome idx n).attempts ≤ n ∧
    ((∀ i, i < n → outcome (idx + i) = false) →
      savePageRun outcome idx n = ⟨0, n, true, n⟩) ∧
    (∀ j, j < n → outcome (idx + j) = true → (∀ i, i < j → outcome (idx + i) = false) →
      savePageRun outcome idx n = ⟨1, j + 1, false, j⟩) ∧
    ((∃ j, j < n ∧ outcome (idx + j) = true) →
      (savePageRun outcome idx n).filesWritten = 1 ∧
        (savePageRun outcome idx n).gaveUp = false) := by
  induction n generalizing idx with
  | zero =>
    refine ⟨Nat.le_refl 0, fun _ => rfl, fun j hj => absurd hj (Nat.not_lt_zero j), ?_⟩
    rintro ⟨j, hj, _⟩
    exact absurd hj (Nat.not_lt_zero j)
  | succ n ih =>
    by_cases ho : outcome idx = true
    · have hrun : savePageRun outcome idx (n + 1) = ⟨1, 1, false, 0⟩ := by
        simp [savePageRun, ho]
      refine ⟨?_, ?_, ?_, ?_⟩
      · rw [hrun]; exact Nat.succ_le_succ (Nat.zero_le n)
      · intro hall
        have h0 := hall 0 (Nat.succ_pos n)
        rw [Nat.add_zero] at h0
        rw [ho] at h0
        cases h0
      · intro j hj hoj hbefore
        cases j with
        | zero => rw [hrun]
        | succ k =>
          have h0 := hbefore 0 (Nat.succ_pos k)
          rw [Nat.add_zero] at h0
          rw [ho] at h0
          cases h0
      · intro _
        rw [hrun]
        exact ⟨rfl, rfl⟩
    · have ho' : outcome idx = false := Bool.eq_false_iff.mpr ho
      have hrun : savePageRun outcome idx (n + 1) =
          ⟨(savePageRun outcome (idx + 1) n).filesWritten,
            (savePageRun outcome (idx + 1) n).attempts + 1,
            (savePageRun outcome (idx + 1) n).gaveUp,
            (savePageRun outcome (idx + 1) n).sleeps + 1⟩ := by
        simp [savePageRun, ho']
      refine ⟨?_, ?_, ?_, ?_⟩
      · rw [hrun]
        exact Nat.succ_le_succ (ih (idx + 1)).1
      · intro hall
        have hall' : ∀ i, i < n → outcome (idx + 1 + i) = false := by
          intro i hi
          have := hall (i + 1) (Nat.succ_lt_succ hi)
          rwa [show idx + (i + 1) = idx + 1 + i by omega] at this
        rw [hrun, (ih (idx + 1)).2.1 hall']
      · intro j hj hoj hbefore
        cases j with
        | zero =>
          rw [Nat.add_zero] at hoj
          rw [ho'] at hoj
          cases hoj
        | succ k =>
          have hoj' : outcome (idx + 1 + k) = true := by
            rwa [show idx + (k + 1) = idx + 1 + k by omega] at hoj
          have hbefore' : ∀ i, i < k → outcome (idx + 1 + i) = false := by
            intro i hi
            have := hbefore (i + 1) (Nat.succ_lt_succ hi)
            rwa [show idx + (i + 1) = idx + 1 + i by omega] at this
          rw [hrun, (ih (idx + 1)).2.2.1 k (Nat.lt_of_succ_lt_succ hj) hoj' hbefore']
      · rintro ⟨j, hj, hoj⟩
        cases j with
        | zero =>
          rw [Nat.add_zero] at hoj
          rw [ho'] at hoj
          cases hoj
        | succ k =>
          have hoj' : outcome (idx + 1 + k) = true := by
            rwa [show idx + (k + 1) = idx + 1 + k by omega] at hoj
          have hex := (ih (idx + 1)).2.2.2 ⟨k, Nat.lt_of_succ_lt_succ hj, hoj'⟩
          rw [hrun]
          exact hex

theorem navLoop_error_of_bad (domain u tx : String) (hne : u ≠ "")
    (hdom : pyIn domain u = true)
    (hbad : to_camel_case (lastSegment u) = Except.error ()) :
    ∀ links : List (Option String × String), (some u, tx) ∈ links →
      ∀ c, navLoop domain links c = Except.error () := by
  intro links
  induction links with
  | nil =>
    intro hmem
    cases hmem
  | cons hd tl ih =>
    intro hmem c
    rcases List.mem_cons.mp hmem with heq | hmemtl
    · rw [← heq]
      have hstep : navStep domain c (some u, tx) = Except.error () := by
        simp only [navStep]
        rw [if_pos ⟨hne, hdom⟩, hbad]
      simp only [navLoop, hstep]
    · cases hstep : navStep domain c hd with
      | error e =>
        cases e
        simp only [navLoop, hstep]
      | ok c2 =>
        simp only [navLoop, hstep]
        exact ih hmemtl c2

theorem removeAds_count (doc : List Node) :
    countId "WIX_ADS" (remove_wix_ads doc) = 0 := by
  induction doc using remove_wix_ads.induct with
  | case1 => simp [remove_wix_ads, countId]
  | case2 s rest ih => simpa [remove_wix_ads, countId] using ih
  | case3 tag cs rest ih => simpa [remove_wix_ads] using ih
  | case4 tag idAttr cs rest hid ih1 ih2 =>
    simp [remove_wix_ads, countId, hid, ih1, ih2]

theorem removeAds_noop (doc : List Node) (h : countId "WIX_ADS" doc = 0) :
    remove_wix_ads doc = doc := by
  induction doc using remove_wix_ads.induct with
  | case1 => simp [remove_wix_ads]
  | case2 s rest ih =>
    rw [countId] at h
    simp [remove_wix_ads, ih h]
  | case3 tag cs rest ih =>
    rw [countId] at h
    simp at h
  | case4 tag idAttr cs rest hid ih1 ih2 =>
    rw [countId] at h
    rw [if_neg hid] at h
    have hcs : countId "WIX_ADS" cs = 0 := by omega
    have hrest : countId "WIX_ADS" rest = 0 := by omega
    simp [remove_wix_ads, hid, ih1 hcs, ih2 hrest]

/-! ## Claim theorems -/

/-- C1 counterexample: a page with one image whose download fails (`env`
returns `false`).  After the image pass the saved content no longer contains
the original remote URL even though no asset file was written — exactly the
"rewritten but download failed" state the claim says cannot occur. -/
theorem c1_counterexample :
    imageLoop (fun _ => false) [some "https://site/pic.png"]
        "<img src=\"https://site/pic.png\">"
      = ("<img src=\"./images/pic.png\">", []) ∧
    pyIn "https://site/pic.png" "<img src=\"./images/pic.png\">" = false ∧
    (fun (_ : String) => false) "https://site/pic.png" = false :=
  ⟨by rfl, by decide, rfl⟩

/-- C1 amended: the image pass of `save_page` rewrites every present,
non-empty image URL to `./images/<safe_filename>` regardless of whether the
download succeeded (the content transformation `imageRewrite` does not
depend on `env` at all), while an asset file is written exactly for the
successful downloads (`imageFiles`). -/
theorem c1_image_rewrite_unconditional (env : String → Bool)
    (imgs : List (Option String)) (c : String) :
    imageLoop env imgs c = (imageRewrite imgs c, imageFiles env imgs) := by
  induction imgs generalizing c with
  | nil => rfl
  | cons hd tl ih =>
    cases hd with
    | none => simp only [imageLoop, imageRewrite, imageFiles, ih]
    | some u =>
      by_cases h : u = ""
      · simp only [imageLoop, imageRewrite, imageFiles, if_pos h, ih]
      · simp only [imageLoop, imageRewrite, imageFiles, if_neg h, ih]

/-- C2 counterexample: the navigation pass replaces an internal link with the
absolute path `/pages/about.html` (leading slash, from the f-string
`f"/pages/{...}.html"` on line 87), not with the relative path
`pages/about.html` the claim describes. -/
theorem c2_counterexample :
    navLoop "soozhalhoo.wixsite.com"
        [(some "https://soozhalhoo.wixsite.com/mysite/about", "About")]
        "<a href=\"https://soozhalhoo.wixsite.com/mysite/about\">About</a>"
      = Except.ok "<a href=\"/pages/about.html\">About</a>" ∧
    ("<a href=\"/pages/about.html\">About</a>" : String)
      ≠ "<a href=\"pages/about.html\">About</a>" :=
  ⟨by rfl, by decide⟩

/-- C2 amended: when every internal link's last URL segment camel-cases
successfully, the navigation pass returns the fold of `navRewriteStep`: each
anchor whose href is present, non-empty and contains the site's domain has
every occurrence of its href replaced by the absolute path
`/pages/<camelCase of trailing segment>.html`, and every other anchor leaves
the content untouched. -/
theorem c2_nav_rewrite (domain : String) (links : List (Option String × String))
    (c : String) (h : ∀ l ∈ links, navLinkOk domain l = true) :
    navLoop domain links c = Except.ok (links.foldl (navRewriteStep domain) c) := by
  induction links generalizing c with
  | nil => rfl
  | cons hd tl ih =>
    have hhd : navLinkOk domain hd = true := h hd (List.mem_cons_self _ _)
    have htl : ∀ l ∈ tl, navLinkOk domain l = true :=
      fun l hl => h l (List.mem_cons_of_mem _ hl)
    rw [List.foldl_cons]
    obtain ⟨href, txt⟩ := hd
    cases href with
    | none =>
      simp only [navLoop, navStep, navRewriteStep]
      exact ih _ htl
    | some u =>
      by_cases hcond : u ≠ "" ∧ pyIn domain u = true
      · cases hcm : to_camel_case (lastSegment u) with
        | error e =>
          exfalso
          simp only [navLinkOk, if_pos hcond, hcm, isOkE] at hhd
          exact Bool.false_ne_true hhd
        | ok name =>
          simp only [navLoop, navStep, navRewriteStep, if_pos hcond, hcm]
          exact ih _ htl
      · simp only [navLoop, navStep, navRewriteStep, if_neg hcond]
        exact ih _ htl

/-- C2 witness: a concrete three-link page (one internal, one missing href,
one external) on which the amended theorem applies. -/
theorem c2_witness :
    navLoop "d.com"
        [(some "https://d.com/x", "X"), (none, "n"), (some "https://e.org/y", "Y")]
        "A https://d.com/x B https://e.org/y"
      = Except.ok
          ([(some "https://d.com/x", "X"), (none, "n"),
            (some "https://e.org/y", "Y")].foldl (navRewriteStep "d.com")
            "A https://d.com/x B https://e.org/y") :=
  c2_nav_rewrite "d.com" _ _ (by decide)

/-- C3 counterexample: for the link `("Our Story", …/our-story)` the
navigation pass rewrites the href to `/pages/ourstory.html` (camelCase of the
URL's trailing segment) while `scrape_link` saves the page as
`pages/our_story.html` (lower-cased, underscore-joined display text): the two
derived names differ, so the substituted path does not name the saved file. -/
theorem c3_counterexample :
    to_camel_case (lastSegment "https://soozhalhoo.wixsite.com/mysite/our-story")
      = Except.ok "ourstory" ∧
    scrape_link_filename "Our Story" = "pages/our_story.html" ∧
    navRewriteStep "soozhalhoo.wixsite.com"
        "<a href=\"https://soozhalhoo.wixsite.com/mysite/our-story\">Our Story</a>"
        (some "https://soozhalhoo.wixsite.com/mysite/our-story", "Our Story")
      = "<a href=\"/pages/ourstory.html\">Our Story</a>" ∧
    ("ourstory" : String) ≠ "our_story" :=
  ⟨by rfl, by rfl, by rfl, by decide⟩

/-- C3 amended: the rewrite name (camelCase of the href's trailing segment)
and the output name (lower-cased, underscore-joined display text) come from
two different conventions; the path substituted into the HTML names the file
`scrape_link` writes exactly when the two derived names happen to coincide. -/
theorem c3_rewrite_vs_filename (t u name : String)
    (h : to_camel_case (lastSegment u) = Except.ok name) :
    ("/pages/" ++ name ++ ".html" = "/" ++ scrape_link_filename t) ↔
      name = pyLower (pyReplace t " " "_") := by
  unfold scrape_link_filename
  rw [slash_pages_append]
  constructor
  · intro he
    exact string_affix_cancel "/pages/" ".html" _ _ he
  · intro he
    rw [he]

/-- C3 witness: for the single-word link `("about", …/about)` the two naming
conventions happen to coincide. -/
theorem c3_witness :
    ("/pages/" ++ "about" ++ ".html" = "/" ++ scrape_link_filename "about") ↔
      "about" = pyLower (pyReplace "about" " " "_") :=
  c3_rewrite_vs_filename "about" "https://d.com/about" "about" (by rfl)

/-- C5 counterexample: an internal-domain anchor whose visible text is empty
IS rewritten by the navigation pass (the inner text is read on line 82 but
never used in the condition on line 84), contradicting the claim that such an
anchor is left alone. -/
theorem c5_counterexample :
    navLoop "d.com" [(some "https://d.com/about", "")]
        "<a href=\"https://d.com/about\">x</a>"
      = Except.ok "<a href=\"/pages/about.html\">x</a>" ∧
    ("<a href=\"/pages/about.html\">x</a>" : String)
      ≠ "<a href=\"https://d.com/about\">x</a>" :=
  ⟨by rfl, by decide⟩

/-- C5 amended: the navigation pass is completely independent of the anchors'
visible text — replacing every link's text by the empty string changes
nothing — so a URL is rewritten exactly when its href is present, non-empty
and contains the site's domain, empty visible text notwithstanding. -/
theorem c5_text_ignored (domain : String) (links : List (Option String × String))
    (c : String) :
    navLoop domain links c = navLoop domain (links.map fun l => (l.1, "")) c := by
  induction links generalizing c with
  | nil => rfl
  | cons hd tl ih =>
    obtain ⟨href, txt⟩ := hd
    simp only [List.map_cons]
    cases hnv : navStep domain c (href, txt) with
    | error e =>
      simp only [navLoop, hnv]
      rw [show navStep domain c (href, "") = Except.error e from hnv]
    | ok c2 =>
      simp only [navLoop, hnv]
      rw [show navStep domain c (href, "") = Except.ok c2 from hnv]
      exact ih c2

/-- C4: the `save_page` retry loop makes at most `maxRetries` attempts; if
every attempt fails it writes no file, prints the giving-up message and
returns (it is a total function, so nothing is raised to the caller), with a
2-second sleep after each failed attempt; if the first success is attempt
`j` then exactly one file is written, exactly `j + 1` attempts are made (no
attempt follows a success) and there is no abandonment; and any successful
attempt yields exactly one written file. -/
theorem c4_retry_policy (outcome : Nat → Bool) (maxRetries : Nat) :
    (save_page outcome maxRetries).attempts ≤ maxRetries ∧
    ((∀ i, i < maxRetries → outcome i = false) →
      save_page outcome maxRetries = ⟨0, maxRetries, true, maxRetries⟩) ∧
    (∀ j, j < maxRetries → outcome j = true → (∀ i, i < j → outcome i = false) →
      save_page outcome maxRetries = ⟨1, j + 1, false, j⟩) ∧
    ((∃ j, j < maxRetries ∧ outcome j = true) →
      (save_page outcome maxRetries).filesWritten = 1 ∧
        (save_page outcome maxRetries).gaveUp = false) := by
  have h := savePageRun_spec outcome 0 maxRetries
  simpa only [save_page, Nat.zero_add] using h

/-- C4 witness: with failures on attempt 0 and success on attempt 1 (and the
default `max_retries = 3`), exactly one file is written after 2 attempts and
1 sleep. -/
theorem c4_witness :
    save_page (fun i => decide (i = 1)) 3 = ⟨1, 2, false, 1⟩ :=
  (c4_retry_policy (fun i => decide (i = 1)) 3).2.2.1 1 (by decide) (by decide)
    (by decide)

/-- C6: the ad stripper leaves zero elements with the `WIX_ADS` identifier in
the document (each match is removed together with its entire subtree), and
when the document contains no such element the result is the very same
document (a no-op at document level, i.e. modulo re-serialization). -/
theorem c6_ad_stripper (doc : List Node) :
    countId "WIX_ADS" (remove_wix_ads doc) = 0 ∧
    (countId "WIX_ADS" doc = 0 → remove_wix_ads doc = doc) :=
  ⟨removeAds_count doc, fun h => removeAds_noop doc h⟩

/-- C6 witness: a document with one ad container (stripped to zero matches)
and an ad-free document (left unchanged). -/
theorem c6_witness :
    countId "WIX_ADS"
        (remove_wix_ads
          [Node.elem "div" (some "WIX_ADS") [Node.text "ad"], Node.text "hi"]) = 0 ∧
    remove_wix_ads [Node.text "hi", Node.elem "p" none []]
      = [Node.text "hi", Node.elem "p" none []] :=
  ⟨(c6_ad_stripper _).1, (c6_ad_stripper [Node.text "hi", Node.elem "p" none []]).2
    (by simp [countId])⟩

/-- C7 counterexample: `raise_for_status` raises only on `400 ≤ status <
600`, so a 304 response — which is not a 2xx success — is written verbatim
and no error is logged, contradicting the claim that every non-2xx status is
treated as a logged-and-swallowed error. -/
theorem c7_counterexample :
    download_asset (FetchResult.ok 304 [1, 2]) true "images" "p.png"
      = ⟨some ("images/p.png", [1, 2]), false⟩ ∧
    ¬(200 ≤ 304 ∧ 304 < 300) :=
  ⟨by decide, by decide⟩

/-- C7 amended: `download_asset` writes the body verbatim to
`<folder>/<filename>` exactly when the status is outside `[400, 600)` (the
range `raise_for_status` raises on) and the filesystem write succeeds; on a
4xx/5xx status, a network error, or a filesystem error it logs, writes
nothing, and — being a total function — propagates nothing to the caller;
it never retries (one fetch per call by construction). -/
theorem c7_download_policy (fetch : FetchResult) (writeOk : Bool)
    (asset_folder filename : String) :
    (∀ status body, fetch = FetchResult.ok status body →
        ¬(400 ≤ status ∧ status < 600) → writeOk = true →
        download_asset fetch writeOk asset_folder filename
          = ⟨some (asset_folder ++ "/" ++ filename, body), false⟩) ∧
    (∀ status body, fetch = FetchResult.ok status body → 400 ≤ status → status < 600 →
        download_asset fetch writeOk asset_folder filename = ⟨none, true⟩) ∧
    (fetch = FetchResult.netError →
        download_asset fetch writeOk asset_folder filename = ⟨none, true⟩) ∧
    (writeOk = false →
        download_asset fetch writeOk asset_folder filename = ⟨none, true⟩) := by
  refine ⟨?_, ?_, ?_, ?_⟩
  · rintro status body rfl hs hw
    simp only [download_asset, if_neg hs, hw, if_true]
  · rintro status body rfl h4 h6
    have hc : 400 ≤ status ∧ status < 600 := ⟨h4, h6⟩
    simp only [download_asset, if_pos hc]
  · rintro rfl
    rfl
  · intro hw
    cases fetch with
    | netError => rfl
    | ok s b =>
      by_cases hs : 400 ≤ s ∧ s < 600
      · simp only [download_asset, if_pos hs]
      · simp [download_asset, hs, hw]

/-- C7 witness: a 200 response with a succeeding write is stored verbatim at
the joined path. -/
theorem c7_witness :
    download_asset (FetchResult.ok 200 [7]) true "images" "pic.png"
      = ⟨some ("images" ++ "/" ++ "pic.png", [7]), false⟩ :=
  (c7_download_policy (FetchResult.ok 200 [7]) true "images" "pic.png").1 200 [7] rfl
    (by decide) rfl

/-- C8: `safe_filename` agrees on every URL with the spec's description of
the Filename Sanitizer — the final (slash-free) segment of the URL's path
with every character outside {word characters, hyphen, underscore, period}
replaced by an underscore. -/
theorem c8_safe_filename (url : String) : safe_filename url = spec_safe_filename url := by
  unfold safe_filename spec_safe_filename
  rw [afterLastSlash_eq]

/-- C9: on any text with no word characters, `to_camel_case` hits
`words[0]` on an empty list and raises (`IndexError`); consequently a capture
of a page whose nav links include an internal href with such a trailing
segment fails on every attempt: the retry budget is fully consumed, no output
file is written, and the crawl continues (the loop returns instead of
raising). -/
theorem c9_camel_indexerror (text u tx : String) (env : String → Bool)
    (domain : String) (pd : PageData) (maxRetries : Nat)
    (htext : ∀ c ∈ text.data, isWordChar c = false)
    (hmem : (some u, tx) ∈ pd.links) (hne : u ≠ "") (hdom : pyIn domain u = true)
    (hseg : ∀ c ∈ (lastSegment u).data, isWordChar c = false)
    (hmax : 1 ≤ maxRetries) :
    to_camel_case text = Except.error () ∧
    save_page_full env domain pd maxRetries = ⟨0, maxRetries, true, maxRetries⟩ ∧
    1 ≤ (save_page_full env domain pd maxRetries).attempts := by
  have h1 := to_camel_case_error text htext
  have hb := to_camel_case_error (lastSegment u) hseg
  have hnav := navLoop_error_of_bad domain u tx hne hdom hb pd.links hmem
  have houtcome : isOkE (captureAttempt env domain pd) = false := by
    simp only [captureAttempt]
    rw [hnav]
    rfl
  have hall : ∀ i, i < maxRetries →
      (fun _ => isOkE (captureAttempt env domain pd)) i = false :=
    fun i _ => houtcome
  have h2 := (savePageRun_spec (fun _ => isOkE (captureAttempt env domain pd))
    0 maxRetries).2.1 hall
  have h3 : save_page_full env domain pd maxRetries = ⟨0, maxRetries, true, maxRetries⟩ := h2
  refine ⟨h1, h3, ?_⟩
  rw [h3]
  exact hmax

/-- C9 witness: the text `"!!!"` has no word characters; a page whose only
nav link ends in that segment exhausts all 3 attempts and writes nothing. -/
theorem c9_witness :
    to_camel_case "!!!" = Except.error () ∧
    save_page_full (fun _ => true) "d.com"
        ⟨"<a href=\"https://d.com/m/!!!\">x</a>", [],
          [(some "https://d.com/m/!!!", "x")]⟩ 3
      = ⟨0, 3, true, 3⟩ ∧
    1 ≤ (save_page_full (fun _ => true) "d.com"
        ⟨"<a href=\"https://d.com/m/!!!\">x</a>", [],
          [(some "https://d.com/m/!!!", "x")]⟩ 3).attempts :=
  c9_camel_indexerror "!!!" "https://d.com/m/!!!" "x" (fun _ => true) "d.com" _ 3
    (by decide) (by decide) (by decide) (by decide) (by decide) (by decide)

/-- C10: the ad stripper is idempotent at document level: stripping an
already-stripped document changes nothing. -/
theorem c10_idempotent (doc : List Node) :
    remove_wix_ads (remove_wix_ads doc) = remove_wix_ads doc :=
  removeAds_noop _ (removeAds_count doc)
